import Mathlib

/-!
Verification of the binary lifecycle orchestrator of the vinegar launcher
(`cmd/vinegar/binary.go`, plus the alternative `main.go` variant shipped in
the repository).

The Go code is shallowly embedded: pure string manipulation becomes pure
Lean functions over `String` (with Go's `strings.Split`, `strings.Join`
and `strings.HasPrefix` modelled structurally on the character list, which
matches their byte-level semantics for the single-character separators and
space-free needles used by the program); effectful control flow (`Main`,
`Run`, `RobloxLogFile`, the splash task, the signal relay) becomes explicit
state passing over oracle records that fix the outcome of every external
call, together with a trace of the externally visible actions performed.
-/

namespace Vinegar

/-! ## Go string primitives -/

/-- Go's `strings.Split` with a single-character separator, on the
character list: splits around every occurrence of `sep`, yielding
`n + 1` pieces for `n` separators (`[[]]` on the empty list). -/

def splitChars (sep : Char) : List Char → List (List Char)
  | [] => [[]]
  | c :: rest =>
    let r := splitChars sep rest
    if c = sep then [] :: r
    else
      match r with
      | [] => [[c]]
      | h :: t => (c :: h) :: t

/-- Go's `strings.Split s sep` for a single-character separator `sep`. -/

def goSplit (s : String) (sep : Char) : List String :=
  (splitChars sep s.data).map String.mk

/-- Go's `strings.Join elems sep`. -/

def goJoin (elems : List String) (sep : String) : String :=
  match elems with
  | [] => ""
  | [a] => a
  | a :: b :: rest => a ++ sep ++ goJoin (b :: rest) sep

/-- Go's `strings.HasPrefix s pre`: the bytes of `pre` lead `s`; on
whole strings this coincides with the character-list prefix relation. -/

def goHasPrefix (s p : String) : Bool :=
  List.isPrefixOf p.data s.data

/-! ## Data model

`Binary` (binary.go) carries the per-variant configuration and state.
External collaborator handles (splash, deployment, activity client,
global persisted state) are modelled as inert data so that frame
properties about them are expressible. -/

/-- roblox.BinaryType: the two app variants. -/

inductive BinaryType
  | Player
  | Studio
deriving DecidableEq, Repr

/-- String rendering of a BinaryType, as used in wrapped error messages
(external `roblox.BinaryType.String()`). -/

def BinaryType.str : BinaryType → String
  | .Player => "Player"
  | .Studio => "Studio"

/-- config.Binary: the per-variant configuration subset read by the
orchestrator (channel, launcher string, feature toggles). -/

structure ConfigBinary where
  Channel : String
  DiscordRPC : Bool
  GameMode : Bool
  Launcher : String
  WineRoot : String
deriving DecidableEq, Repr

/-- config.Config: the global configuration subset read by the
orchestrator. -/

structure ConfigGlobal where
  MultipleInstances : Bool
deriving DecidableEq, Repr

/-- state.Binary: the per-variant persisted state, inert for the
orchestrator (modelled as abstract data). -/

structure StateBinary where
  data : String
deriving DecidableEq, Repr

/-- The Binary struct of binary.go, restricted to the fields the
orchestrator reads or writes; collaborator handles are inert data. -/

structure Binary where
  SplashHandle : String
  GlobalState : String
  State : StateBinary
  GlobalConfig : ConfigGlobal
  Config : ConfigBinary
  Alias : String
  Name : String
  Dir : String
  PrefixDir : String
  BType : BinaryType
  DeployHandle : String
  Auth : Bool
  ActivityHandle : String
deriving DecidableEq, Repr

/-! ## Protocol URI handling (binary.go, HandleProtocolURI) -/

/-- Body of the loop of `Binary.HandleProtocolURI`: one `+`-separated
token is split on `:`; exactly two parts, key `channel` and a non-empty
value overwrite the configured channel, everything else is ignored. -/

def applyProtocolToken (b : Binary) (uri : String) : Binary :=
  match goSplit uri ':' with
  | [k, v] =>
    if k = "channel" then
      if v = "" then b
      else { b with Config := { b.Config with Channel := v } }
    else b
  | _ => b

/-- Binary.HandleProtocolURI: split the mime string on `+` and process
each token in order. -/

def Binary.HandleProtocolURI (b : Binary) (mime : String) : Binary :=
  (goSplit mime '+').foldl applyProtocolToken b

/-- The channel override carried by a single token, if any: defined by
the same decomposition the code performs (exactly two `:`-parts, key
`channel`, non-empty value). -/

def channelValue (uri : String) : Option String :=
  match goSplit uri ':' with
  | [k, v] => if k = "channel" ∧ v ≠ "" then some v else none
  | _ => none

/-- Protocol handling step of `Binary.Main` (lines 177–182): only an
argument list of exactly one element is treated as a protocol URI. -/

def Binary.mainProtocolStep (b : Binary) (args : List String) : Binary :=
  match args with
  | [a] => b.HandleProtocolURI a
  | _ => b

/-! Helper lemmas about protocol tokens. -/

/-- A concrete Binary instance used by witness theorems. -/

def binEx : Binary :=
  { SplashHandle := "splash", GlobalState := "gstate", State := ⟨"state"⟩
    GlobalConfig := { MultipleInstances := false }
    Config := { Channel := "LIVE", DiscordRPC := true, GameMode := true,
                Launcher := "", WineRoot := "" }
    Alias := "Player", Name := "RobloxPlayerLauncher.exe", Dir := "/versions/v1"
    PrefixDir := "/pfx", BType := .Player, DeployHandle := "", Auth := false
    ActivityHandle := "" }

/-! ## Launch command argument preprocessing (binary.go, Command) -/

/-- Argument preprocessing of `Binary.Command` (binary.go lines 357–361):
when the space-joined argument list has the Studio protocol marker as a
prefix, the whole list is replaced by the dedicated protocol flag followed
by the first argument (`args[0]`, total under the guard, embedded as
`headD`). -/

def commandArgs (args : List String) : List String :=
  if goHasPrefix (goJoin args " ") "roblox-studio:1" then
    ["-protocolString", args.headD ""]
  else args

/-! ## Log discovery (binary.go, RobloxLogFile)

The fsnotify watch is embedded as an oracle world: the outcome of each
fallible setup call, plus the sequence in which the select loop receives
timer expiry, filesystem events and watcher errors. The function yields
the trace of externally visible actions and, in the second component,
`none` while the loop is still waiting, or `some (path, err)` for the
Go pair it returns. -/

/-- Rendering of the fixed 6-second timeout constant of binary.go, as Go
formats `6 * time.Second`. -/

def timeoutStr : String := "6s"

/-- One delivery received by the select loop of RobloxLogFile. -/

inductive WatchEvent
  | timer
  | fsEvent (name : String) (isCreate : Bool)
  | watchError (e : String)
deriving DecidableEq, Repr

/-- Externally visible actions of RobloxLogFile. -/

inductive FSAct
  | mkdirAll (dir : String)
  | newWatcher
  | addWatch (dir : String)
  | logWatchError (e : String)
deriving DecidableEq, Repr

/-- Oracle world for one call to RobloxLogFile. -/

structure WatchWorld where
  appDataDir : Except String String
  mkdirAll : Except String Unit
  newWatcher : Except String Unit
  addWatch : Except String Unit
  events : List WatchEvent
deriving Repr

/-- The select loop of RobloxLogFile: the timer returns the timeout
error, a creation event returns the created file's name, any other
filesystem event keeps waiting, and a watcher error is logged and keeps
waiting. -/

def logWaitLoop : List WatchEvent → List FSAct × Option (String × Option String)
  | [] => ([], none)
  | WatchEvent.timer :: _ =>
      ([], some ("", some ("roblox log file not found after " ++ timeoutStr)))
  | WatchEvent.fsEvent n c :: rest =>
      if c then ([], some (n, none)) else logWaitLoop rest
  | WatchEvent.watchError e :: rest =>
      let r := logWaitLoop rest
      (FSAct.logWatchError e :: r.1, r.2)

/-- RobloxLogFile (binary.go lines 299–337): resolve the appdata
directory, create the log directory, create the watcher, install the
watch — each failure returning a wrapped error — then run the select
loop. -/

def RobloxLogFile (w : WatchWorld) : List FSAct × Option (String × Option String) :=
  match w.appDataDir with
  | .error e => ([], some ("", some ("get appdata: " ++ e)))
  | .ok ad =>
    let dir := ad ++ "/Local/Roblox/logs"
    match w.mkdirAll with
    | .error e => ([FSAct.mkdirAll dir], some ("", some ("create roblox log dir: " ++ e)))
    | .ok _ =>
      match w.newWatcher with
      | .error e => ([FSAct.mkdirAll dir, FSAct.newWatcher],
                     some ("", some ("make fsnotify watcher: " ++ e)))
      | .ok _ =>
        match w.addWatch with
        | .error e => ([FSAct.mkdirAll dir, FSAct.newWatcher, FSAct.addWatch dir],
                       some ("", some ("watch roblox log dir: " ++ e)))
        | .ok _ =>
          let r := logWaitLoop w.events
          ([FSAct.mkdirAll dir, FSAct.newWatcher, FSAct.addWatch dir] ++ r.1, r.2)

/-- An event the select loop absorbs without returning: a non-creation
filesystem event or a watcher error. -/

def skippableEvent : WatchEvent → Bool
  | WatchEvent.timer => false
  | WatchEvent.fsEvent _ c => !c
  | WatchEvent.watchError _ => true

/-- A concrete watch world used by the C4 witness: a watcher error and a
non-creation event precede the first creation event, which beats the
timer. -/

def watchWorldEx : WatchWorld :=
  { appDataDir := Except.ok "/pfx/drive_c/users/u/AppData"
    mkdirAll := Except.ok ()
    newWatcher := Except.ok ()
    addWatch := Except.ok ()
    events := [WatchEvent.watchError "overflow", WatchEvent.fsEvent "old" false,
               WatchEvent.fsEvent "roblox.log" true, WatchEvent.timer] }

/-! ## Splash supervision tasks -/

/-- Result of Splash.Run as seen by its supervising task: `none` for a
nil error, `closed` for splash.ErrClosed, `internal` for any other
error. -/

inductive SplashErr
  | closed
  | internal (msg : String)
deriving DecidableEq, Repr

/-- Externally visible actions of the splash supervision tasks. -/

inductive SplashTaskAct
  | logWarnClosed
  | sendInterrupt
  | logFatal (e : String)
  | logSplashError (e : SplashErr)
deriving DecidableEq, Repr

/-- The splash-supervision goroutine of Binary.Main (binary.go lines
134–150): ErrClosed is logged and SIGINT is sent to the own process; any
other non-nil error is a fatal log, which exits without an interrupt; a
nil error does nothing. -/

def splashTask : Option SplashErr → List SplashTaskAct
  | some SplashErr.closed => [SplashTaskAct.logWarnClosed, SplashTaskAct.sendInterrupt]
  | some (SplashErr.internal e) => [SplashTaskAct.logFatal e]
  | none => []

/-- The splash-supervision goroutine of the alternative main
(src/unnamed/part_000 lines 105–113): a non-nil error is logged, and
SIGINT is sent unconditionally once Splash.Run returns. -/

def splashTaskAlt (res : Option SplashErr) : List SplashTaskAct :=
  (match res with
   | some e => [SplashTaskAct.logSplashError e]
   | none => []) ++ [SplashTaskAct.sendInterrupt]

/-! ## Process supervision (binary.go, Run)

Run is embedded over an oracle world fixing every external outcome: the
activity connection, the mutexer helper, the command build, the child
process, the signals received, log discovery and the tailed lines. The
outcome separates the actions of the sequential main flow from those of
the three concurrent tasks Run spawns (mutexer wait, signal relay,
post-launch). -/

/-- Oracle world for one call to Binary.Run. -/

structure RunWorld where
  activityConnect : Except String Unit
  mutexerStart : Except String Unit
  mutexerWait : Except String Unit
  command : Except String Unit
  childPid : Nat
  childExitedAtSignal : Bool
  signals : List String
  discover : Except String String
  tailOpen : Except String Unit
  logLines : List String
  childRun : Except String Unit
deriving Repr

/-- Actions of Run's sequential main flow and of the mutexer-wait task. -/

inductive RunAct
  | logActivityConnectError (e : String)
  | startMutexer
  | logMutexerEarlyExit (e : String)
  | armSignalRelay
  | spawnPostLaunch
deriving DecidableEq, Repr

/-- Actions of the signal-relay task. -/

inductive RelayAct
  | logSignal (s : String)
  | killChild
  | stopListening
deriving DecidableEq, Repr

/-- Actions of the post-launch task (discovery, splash close, GameMode
registration, tailing). -/

inductive PostAct
  | discoverOk (path : String)
  | logDiscoverError (e : String)
  | splashClose
  | registerGameMode (pid : Int)
  | tailStart (path : String)
  | logTailOpenError (e : String)
  | printLine (l : String)
  | handleRobloxLog (l : String)
deriving DecidableEq, Repr

/-- Go's int32(n) conversion of a non-negative integer: reduce modulo
2^32 into the signed 32-bit range. -/

def int32ofNat (n : Nat) : Int :=
  if n % 2 ^ 32 < 2 ^ 31 then ((n % 2 ^ 32 : Nat) : Int)
  else ((n % 2 ^ 32 : Nat) : Int) - 2 ^ 32

/-- Outcome of one call to Binary.Run. -/

structure RunOutcome where
  pre : List RunAct
  mutexerTask : List RunAct
  relay : List RelayAct
  post : List PostAct
  childStarted : Bool
  result : Option String
deriving DecidableEq, Repr

/-- The signal-relay goroutine of Binary.Run (lines 242–260): it receives
one signal, logs it, kills the child only if it has not already exited,
and then stops listening, leaving any further signal uninspected. -/

def signalRelay (childExited : Bool) (signals : List String) : List RelayAct :=
  match signals with
  | [] => []
  | s :: _ =>
      RelayAct.logSignal s ::
        (if childExited then [] else [RelayAct.killChild]) ++ [RelayAct.stopListening]

/-- Binary.Tail (binary.go lines 339–355): open the tail (logging a
failure), then per line print it and, only when the DiscordRPC flag is
still set, hand it to the activity reporter. -/

def tailActs (discordRPC : Bool) (w : RunWorld) (path : String) : List PostAct :=
  PostAct.tailStart path ::
    match w.tailOpen with
    | .error e => [PostAct.logTailOpenError e]
    | .ok _ =>
        w.logLines.foldr (fun l acc =>
          PostAct.printLine l ::
            (if discordRPC then [PostAct.handleRobloxLog l] else []) ++ acc) []

/-- The post-launch goroutine of Binary.Run (lines 265–296): once the
child's handle appears, discover the log file; a failure is only logged
and everything else is skipped; on success close the splash, register
with GameMode when enabled, then tail the log. -/

def postLaunch (b : Binary) (w : RunWorld) : List PostAct :=
  match w.discover with
  | .error e => [PostAct.logDiscoverError e]
  | .ok lf =>
      PostAct.discoverOk lf :: PostAct.splashClose ::
        (if b.Config.GameMode then
            [PostAct.registerGameMode (int32ofNat w.childPid)] else [])
        ++ tailActs b.Config.DiscordRPC w lf

/-- Tail of Binary.Run from the command build onwards: a command failure
returns a wrapped error; otherwise the relay and post-launch tasks are
spawned and the child is run, its abnormal exit wrapped. -/

def runWithCommand (b1 : Binary) (w : RunWorld)
    (pre : List RunAct) (mutexerTask : List RunAct) : RunOutcome :=
  match w.command with
  | .error e =>
      { pre := pre, mutexerTask := mutexerTask, relay := [], post := [],
        childStarted := false,
        result := some (b1.BType.str ++ " command: " ++ e) }
  | .ok _ =>
      { pre := pre ++ [RunAct.armSignalRelay, RunAct.spawnPostLaunch],
        mutexerTask := mutexerTask,
        relay := signalRelay w.childExitedAtSignal w.signals,
        post := postLaunch b1 w,
        childStarted := true,
        result :=
          match w.childRun with
          | .error e => some ("roblox process: " ++ e)
          | .ok _ => none }

/-- The DiscordRPC connect step of Run (lines 212–220): on a connect
failure the error is logged and the flag is cleared on the Binary's
configuration. -/

def runConnectStep (b : Binary) (w : RunWorld) : Binary × List RunAct :=
  if b.Config.DiscordRPC then
    match w.activityConnect with
    | .error e =>
        ({ b with Config := { b.Config with DiscordRPC := false } },
         [RunAct.logActivityConnectError e])
    | .ok _ => (b, [])
  else (b, [])

/-- Binary.Run (binary.go lines 212–297): the DiscordRPC connect step
(disabling the flag on failure), the mutexer helper for a Player with
multiple instances configured (start failure fatal, early exit logged in
a fire-and-forget task), then the command build, the concurrent tasks
and the child process. The launch arguments flow only into the command
oracle and are omitted. -/

def Binary.Run (b : Binary) (w : RunWorld) : RunOutcome :=
  let b1 := (runConnectStep b w).1
  let pre0 := (runConnectStep b w).2
  if b1.GlobalConfig.MultipleInstances = true ∧ b1.BType = BinaryType.Player then
    match w.mutexerStart with
    | .error e =>
        { pre := pre0 ++ [RunAct.startMutexer], mutexerTask := [], relay := [],
          post := [], childStarted := false,
          result := some ("start robloxmutexer: " ++ e) }
    | .ok _ =>
        runWithCommand b1 w (pre0 ++ [RunAct.startMutexer])
          (match w.mutexerWait with
           | .error e => [RunAct.logMutexerEarlyExit e]
           | .ok _ => [])
  else
    runWithCommand b1 w pre0 []

/-- Whether the Discord RPC connect step leaves activity reporting
enabled. -/

def connectOk (w : RunWorld) : Bool :=
  match w.activityConnect with
  | .ok _ => true
  | .error _ => false

/-- The Binary as it stands after Run's connect step. -/

def effBinary (b : Binary) (w : RunWorld) : Binary :=
  if b.Config.DiscordRPC && !connectOk w then
    { b with Config := { b.Config with DiscordRPC := false } }
  else b

/-- A run world in which every step succeeds, the log file is discovered
and one log line is tailed. -/

def runWorldOk : RunWorld :=
  { activityConnect := Except.ok (), mutexerStart := Except.ok ()
    mutexerWait := Except.ok (), command := Except.ok (), childPid := 1234
    childExitedAtSignal := false, signals := [], discover := Except.ok "roblox.log"
    tailOpen := Except.ok (), logLines := ["joining game"], childRun := Except.ok () }

/-- A run world identical to `runWorldOk` except that the activity
connection fails. -/

def runWorldConnFail : RunWorld :=
  { runWorldOk with activityConnect := Except.error "no ipc socket" }

/-- A Player Binary configured for multiple instances, for the C8
counterexample and witness. -/

def binMulti : Binary :=
  { binEx with GlobalConfig := { MultipleInstances := true } }

/-- A run world in which the robloxmutexer helper fails to start. -/

def runWorldMutexFail : RunWorld :=
  { runWorldOk with mutexerStart := Except.error "exec format error" }

/-- A run world in which the mutexer helper starts but exits early. -/

def runWorldMutexEarly : RunWorld :=
  { runWorldOk with mutexerWait := Except.error "exited too early" }

/-! ## Lifecycle orchestration (binary.go, Main)

Main is embedded over an oracle world fixing the log-file creation, the
wineprefix marker probe, the CPU feature, the external first-run flag
and the outcomes of the delegated initialization, install, setup and run
calls. It yields the trace of actions, the returned error and the Binary
as it stands after protocol handling. -/

/-- Oracle world for one call to Binary.Main. -/

structure MainWorld where
  logFile : Except String String
  windowsMarkerExists : Bool
  cpuAVX : Bool
  firstRunFlag : Bool
  prefixInit : Except String Unit
  setDPI : Except String Unit
  installWebView : Except String Unit
  setup : Except String Unit
  runResult : Except String Unit
deriving Repr

/-- Externally visible actions of Binary.Main. -/

inductive MainAct
  | dialogNoAVX
  | spawnSplashTask
  | setMessageInitializing
  | prefixInit
  | setDPI (dpi : Nat)
  | installWebView
  | protocolStep (uri : String)
  | setDesc (channel : String)
  | setup
  | runChild (args : List String)
deriving DecidableEq, Repr

/-- The first-run determination of Main (lines 124–127): the wineprefix
marker directory `drive_c/windows` is absent. -/

def MainWorld.firstRun (w : MainWorld) : Bool := !w.windowsMarkerExists

/-- The environment-initialization call Main delegates to: Prefix.Init
for Player, SetDPI 97 for Studio. -/

def initOutcome (b : Binary) (w : MainWorld) : Except String Unit :=
  match b.BType with
  | BinaryType.Player => w.prefixInit
  | BinaryType.Studio => w.setDPI

/-- The action recording the variant's initialization call. -/

def initAction (b : Binary) : MainAct :=
  match b.BType with
  | BinaryType.Player => MainAct.prefixInit
  | BinaryType.Studio => MainAct.setDPI 97

/-- Tail of Binary.Main after the first-run block (lines 177–192):
protocol handling, splash description, Setup and Run, each failure
wrapped. -/

def mainRest (b : Binary) (w : MainWorld) (args : List String) :
    List MainAct × Option String × Binary :=
  let b1 := b.mainProtocolStep args
  let pTr : List MainAct :=
    match args with
    | [a] => [MainAct.protocolStep a]
    | _ => []
  let tr := pTr ++ [MainAct.setDesc b1.Config.Channel]
  match w.setup with
  | .error e => (tr ++ [MainAct.setup], some ("failed to setup roblox: " ++ e), b1)
  | .ok _ =>
    match w.runResult with
    | .error e => (tr ++ [MainAct.setup, MainAct.runChild args],
                   some ("failed to run roblox: " ++ e), b1)
    | .ok _ => (tr ++ [MainAct.setup, MainAct.runChild args], none, b1)

/-- Binary.Main (binary.go lines 103–193): log-file creation, the
first-run probe, the AVX advisory dialog, the splash-task spawn, the
first-run initialization and WebView install with their wrapped errors,
then the protocol step, Setup and Run. -/

def Binary.Main (b : Binary) (w : MainWorld) (args : List String) :
    List MainAct × Option String × Binary :=
  match w.logFile with
  | .error e => ([], some ("create log file: " ++ e), b)
  | .ok _ =>
    let avxTr : List MainAct :=
      if w.firstRun && !w.cpuAVX then [MainAct.dialogNoAVX] else []
    let tr0 := avxTr ++ [MainAct.spawnSplashTask]
    if w.firstRun || w.firstRunFlag then
      match initOutcome b w with
      | .error e =>
          (tr0 ++ [MainAct.setMessageInitializing, initAction b],
           some ("failed to init " ++ b.BType.str ++ " prefix: " ++ e), b)
      | .ok _ =>
        match w.installWebView with
        | .error e =>
            (tr0 ++ [MainAct.setMessageInitializing, initAction b,
                     MainAct.installWebView],
             some ("failed to install webview: " ++ e), b)
        | .ok _ =>
            let r := mainRest b w args
            (tr0 ++ [MainAct.setMessageInitializing, initAction b,
                     MainAct.installWebView] ++ r.1, r.2)
    else
      let r := mainRest b w args
      (tr0 ++ r.1, r.2)

/-- A main world for a first run whose initialization call fails. -/

def mainWorldInitFail : MainWorld :=
  { logFile := Except.ok "player.log", windowsMarkerExists := false, cpuAVX := true
    firstRunFlag := false, prefixInit := Except.error "wineboot failed"
    setDPI := Except.ok (), installWebView := Except.ok ()
    setup := Except.ok (), runResult := Except.ok () }

/-! ## Theorems -/

theorem applyProtocolToken_channel (b : Binary) (uri : String) :
    (applyProtocolToken b uri).Config.Channel =
      ((channelValue uri).getD b.Config.Channel) := by
  unfold applyProtocolToken channelValue
  rcases h : goSplit uri ':' with _ | ⟨k, _ | ⟨v, _ | _⟩⟩ <;> simp
  by_cases hk : k = "channel" <;> simp [hk]
  by_cases hv : v = "" <;> simp [hv]

theorem applyProtocolToken_none (b : Binary) (uri : String)
    (h : channelValue uri = none) : applyProtocolToken b uri = b := by
  unfold applyProtocolToken
  unfold channelValue at h
  rcases hs : goSplit uri ':' with _ | ⟨k, _ | ⟨v, _ | _⟩⟩ <;> simp
  rw [hs] at h
  simp at h
  by_cases hk : k = "channel" <;> simp [hk]
  intro hv
  exact absurd (h hk) (by simp [hv])

theorem applyProtocolToken_frame (b : Binary) (uri : String) :
    applyProtocolToken b uri =
      { b with Config :=
          { b.Config with Channel := (applyProtocolToken b uri).Config.Channel } } := by
  unfold applyProtocolToken
  rcases goSplit uri ':' with _ | ⟨k, _ | ⟨v, _ | _⟩⟩ <;> simp
  by_cases hk : k = "channel" <;> simp [hk]
  by_cases hv : v = "" <;> simp [hv]

theorem foldl_applyProtocolToken_channel (l : List String) (b : Binary) :
    (l.foldl applyProtocolToken b).Config.Channel =
      (l.filterMap channelValue).getLastD b.Config.Channel := by
  induction l generalizing b with
  | nil => rfl
  | cons u l ih =>
    rw [List.foldl_cons, ih]
    rcases h : channelValue u with _ | v
    · rw [applyProtocolToken_none b u h, List.filterMap_cons_none h]
    · have hc : (applyProtocolToken b u).Config.Channel = v := by
        rw [applyProtocolToken_channel, h]; rfl
      rw [hc, List.filterMap_cons_some h, List.getLastD_cons]

theorem foldl_applyProtocolToken_frame (l : List String) (b : Binary) :
    l.foldl applyProtocolToken b =
      { b with Config :=
          { b.Config with Channel := (l.foldl applyProtocolToken b).Config.Channel } } := by
  induction l generalizing b with
  | nil => rfl
  | cons u l ih =>
    rw [List.foldl_cons, ih (applyProtocolToken b u)]
    rw [applyProtocolToken_frame b u]

/-- C1: with exactly one extra argument, Main parses it as a protocol URI:
split on `+`, each token split on `:`; a two-part token with key `channel`
and non-empty value overwrites the channel to exactly that value (the last
such token winning), every other token leaves the binary unchanged; with
any other number of arguments protocol handling never touches the channel. -/
theorem main_protocol_uri_channel (b : Binary) (args : List String) :
    (∀ a, args = [a] →
        (b.mainProtocolStep args).Config.Channel =
          ((goSplit a '+').filterMap channelValue).getLastD b.Config.Channel) ∧
    (∀ uri v, channelValue uri = some v →
        (applyProtocolToken b uri).Config.Channel = v) ∧
    (∀ uri, channelValue uri = none → applyProtocolToken b uri = b) ∧
    (args.length ≠ 1 → b.mainProtocolStep args = b) := by
  refine ⟨?_, ?_, ?_, ?_⟩
  · intro a ha
    subst ha
    simpa [Binary.mainProtocolStep, Binary.HandleProtocolURI] using
      foldl_applyProtocolToken_channel (goSplit a '+') b
  · intro uri v h
    rw [applyProtocolToken_channel, h]
    rfl
  · intro uri h
    exact applyProtocolToken_none b uri h
  · intro h
    rcases args with _ | ⟨a, _ | ⟨c, l⟩⟩
    · rfl
    · exact absurd rfl h
    · rfl

/-- Witness for the C1 theorem: a concrete URI with an empty-value token,
an ignored key, a malformed token and two channel overrides, of which the
last wins. -/
theorem main_protocol_uri_channel_witness :
    (binEx.mainProtocolStep
        ["channel:zcanary+x+channel:+channel:zlive+a:b:c"]).Config.Channel
      = "zlive" := by
  have h := (main_protocol_uri_channel binEx
      ["channel:zcanary+x+channel:+channel:zlive+a:b:c"]).1
      "channel:zcanary+x+channel:+channel:zlive+a:b:c" rfl
  rw [h]
  decide

/-- C10: HandleProtocolURI mutates at most the configured channel; every
other field of the Binary, of its configuration subset and of its
persisted state is left unchanged. -/
theorem handleProtocolURI_frame (b : Binary) (mime : String) :
    (b.HandleProtocolURI mime).SplashHandle = b.SplashHandle ∧
    (b.HandleProtocolURI mime).GlobalState = b.GlobalState ∧
    (b.HandleProtocolURI mime).State = b.State ∧
    (b.HandleProtocolURI mime).GlobalConfig = b.GlobalConfig ∧
    (b.HandleProtocolURI mime).Config.DiscordRPC = b.Config.DiscordRPC ∧
    (b.HandleProtocolURI mime).Config.GameMode = b.Config.GameMode ∧
    (b.HandleProtocolURI mime).Config.Launcher = b.Config.Launcher ∧
    (b.HandleProtocolURI mime).Config.WineRoot = b.Config.WineRoot ∧
    (b.HandleProtocolURI mime).Alias = b.Alias ∧
    (b.HandleProtocolURI mime).Name = b.Name ∧
    (b.HandleProtocolURI mime).Dir = b.Dir ∧
    (b.HandleProtocolURI mime).PrefixDir = b.PrefixDir ∧
    (b.HandleProtocolURI mime).BType = b.BType ∧
    (b.HandleProtocolURI mime).DeployHandle = b.DeployHandle ∧
    (b.HandleProtocolURI mime).Auth = b.Auth ∧
    (b.HandleProtocolURI mime).ActivityHandle = b.ActivityHandle := by
  refine ⟨?_, ?_, ?_, ?_, ?_, ?_, ?_, ?_, ?_, ?_, ?_, ?_, ?_, ?_, ?_, ?_⟩ <;>
    (rw [Binary.HandleProtocolURI, foldl_applyProtocolToken_frame])

theorem data_goJoin_cons_cons (a b : String) (l : List String) :
    (goJoin (a :: b :: l) " ").data =
      a.data ++ ' ' :: (goJoin (b :: l) " ").data := by
  show (a ++ " " ++ goJoin (b :: l) " ").data = _
  rw [String.data_append, String.data_append]
  simp

theorem prefix_append_cons_iff (p a : List Char) (t : List Char)
    (hp : ' ' ∉ p) : p <+: a ++ ' ' :: t ↔ p <+: a := by
  constructor
  · intro h
    rcases le_or_lt p.length a.length with hle | hlt
    · exact List.prefix_of_prefix_length_le h (List.prefix_append a (' ' :: t)) hle
    · exfalso
      have ha : a <+: p :=
        List.prefix_of_prefix_length_le (List.prefix_append a (' ' :: t)) h
          (Nat.le_of_lt hlt)
      rcases ha with ⟨s, hs⟩
      subst hs
      rcases s with _ | ⟨c, s⟩
      · simp at hlt
      · have hsp : c :: s <+: ' ' :: t := (List.prefix_append_right_inj a).mp h
        rw [List.cons_prefix_cons] at hsp
        exact hp (by simp [hsp.1])
  · intro h
    exact h.trans (List.prefix_append a (' ' :: t))

theorem goHasPrefix_goJoin_cons (p a : String) (rest : List String)
    (hp : ' ' ∉ p.data) :
    goHasPrefix (goJoin (a :: rest) " ") p = goHasPrefix a p := by
  rcases rest with _ | ⟨b, l⟩
  · rfl
  · rw [Bool.eq_iff_iff]
    simp only [goHasPrefix, List.isPrefixOf_iff_prefix, data_goJoin_cons_cons]
    exact prefix_append_cons_iff p.data a.data _ hp

/-- C9: an argument list whose first argument begins with
`roblox-studio:1` (equivalently, since that marker contains no space,
whose space-joined form begins with it) is replaced by exactly
`["-protocolString", first-argument]`, discarding all later arguments. -/
theorem command_protocol_string (args : List String) (a : String)
    (rest : List String) (hargs : args = a :: rest) :
    (goHasPrefix (goJoin args " ") "roblox-studio:1"
        = goHasPrefix a "roblox-studio:1") ∧
    (goHasPrefix a "roblox-studio:1" = true →
        commandArgs args = ["-protocolString", a]) := by
  subst hargs
  have hp : ' ' ∉ ("roblox-studio:1").data := by decide
  have hj := goHasPrefix_goJoin_cons "roblox-studio:1" a rest hp
  refine ⟨hj, fun hpre => ?_⟩
  rw [commandArgs, hj, hpre]
  rfl

/-- Witness for the C9 theorem: a Studio protocol first argument with a
trailing extra argument that gets discarded. -/
theorem command_protocol_string_witness :
    commandArgs ["roblox-studio:1+launchmode:edit", "extra"] =
      ["-protocolString", "roblox-studio:1+launchmode:edit"] :=
  (command_protocol_string ["roblox-studio:1+launchmode:edit", "extra"]
      "roblox-studio:1+launchmode:edit" ["extra"] rfl).2 (by decide)

theorem logWaitLoop_append_skippable (pre evs : List WatchEvent)
    (hpre : ∀ e ∈ pre, skippableEvent e = true) :
    (logWaitLoop (pre ++ evs)).2 = (logWaitLoop evs).2 := by
  induction pre with
  | nil => rfl
  | cons e p ih =>
    have he := hpre e (List.mem_cons_self e p)
    have hp : ∀ x ∈ p, skippableEvent x = true :=
      fun x hx => hpre x (List.mem_cons_of_mem e hx)
    cases e with
    | timer => simp [skippableEvent] at he
    | fsEvent n c =>
        have hc : c = false := by simpa [skippableEvent] using he
        subst hc
        simpa [logWaitLoop] using ih hp
    | watchError s => simpa [logWaitLoop] using ih hp

/-- C4: the log directory is created before the watch is installed; a
creation event arriving before the 6-second timer returns that file's
path and no error; the timer firing first returns an empty path and the
timeout error; watcher errors received while waiting are logged and do
not terminate the wait. -/
theorem roblox_log_file_spec (w : WatchWorld)
    (hmk : w.mkdirAll = Except.ok ())
    (hnw : w.newWatcher = Except.ok ())
    (haw : w.addWatch = Except.ok ())
    (ad : String) (had : w.appDataDir = Except.ok ad)
    (pre : List WatchEvent) (hpre : ∀ e ∈ pre, skippableEvent e = true) :
    ((RobloxLogFile w).1.take 3 =
        [FSAct.mkdirAll (ad ++ "/Local/Roblox/logs"), FSAct.newWatcher,
         FSAct.addWatch (ad ++ "/Local/Roblox/logs")]) ∧
    (∀ n rest, w.events = pre ++ WatchEvent.fsEvent n true :: rest →
        (RobloxLogFile w).2 = some (n, none)) ∧
    (∀ rest, w.events = pre ++ WatchEvent.timer :: rest →
        (RobloxLogFile w).2 =
          some ("", some ("roblox log file not found after " ++ timeoutStr))) ∧
    (∀ e evs, (logWaitLoop (WatchEvent.watchError e :: evs)).2 = (logWaitLoop evs).2 ∧
        (logWaitLoop (WatchEvent.watchError e :: evs)).1 =
          FSAct.logWatchError e :: (logWaitLoop evs).1) := by
  refine ⟨?_, ?_, ?_, ?_⟩
  · simp [RobloxLogFile, had, hmk, hnw, haw]
  · intro n rest hev
    simp only [RobloxLogFile, had, hmk, hnw, haw, hev]
    rw [logWaitLoop_append_skippable pre _ hpre]
    simp [logWaitLoop]
  · intro rest hev
    simp only [RobloxLogFile, had, hmk, hnw, haw, hev]
    rw [logWaitLoop_append_skippable pre _ hpre]
    simp [logWaitLoop]
  · intro e evs
    constructor <;> simp [logWaitLoop]

/-- Witness for the C4 theorem: in `watchWorldEx` discovery returns the
created file and no error. -/
theorem roblox_log_file_spec_witness :
    (RobloxLogFile watchWorldEx).2 = some ("roblox.log", none) :=
  (roblox_log_file_spec watchWorldEx rfl rfl rfl "/pfx/drive_c/users/u/AppData" rfl
      [WatchEvent.watchError "overflow", WatchEvent.fsEvent "old" false]
      (by decide)).2.1 "roblox.log" [WatchEvent.timer] rfl

/-- Counterexample to C6 as stated: in Binary.Main's splash task an
internal-error termination delivers no interrupt — the task exits the
process through a fatal log instead. -/
theorem splash_interrupt_cex :
    SplashTaskAct.sendInterrupt ∉
      splashTask (some (SplashErr.internal "widget failure")) := by
  decide

/-- C6 amended: in Binary.Main's splash task, only the normal user close
(ErrClosed) delivers the interrupt; an internal error produces a fatal
log without an interrupt and a nil result produces nothing; in the
alternative main's splash task, every termination delivers the
interrupt. -/
theorem splash_task_interrupt (res : Option SplashErr) :
    (res = some SplashErr.closed →
        splashTask res = [SplashTaskAct.logWarnClosed, SplashTaskAct.sendInterrupt]) ∧
    (∀ e, res = some (SplashErr.internal e) →
        splashTask res = [SplashTaskAct.logFatal e] ∧
        SplashTaskAct.sendInterrupt ∉ splashTask res) ∧
    (res = none → splashTask res = []) ∧
    SplashTaskAct.sendInterrupt ∈ splashTaskAlt res := by
  refine ⟨?_, ?_, ?_, ?_⟩
  · intro h; subst h; rfl
  · intro e h; subst h; exact ⟨rfl, by simp [splashTask]⟩
  · intro h; subst h; rfl
  · rcases res with _ | ⟨_ | e⟩ <;> simp [splashTaskAlt]

/-- Witness for the C6 amended theorem at the normal-close result. -/
theorem splash_task_interrupt_witness :
    splashTask (some SplashErr.closed) =
      [SplashTaskAct.logWarnClosed, SplashTaskAct.sendInterrupt] :=
  (splash_task_interrupt (some SplashErr.closed)).1 rfl

theorem runConnectStep_fst (b : Binary) (w : RunWorld) :
    (runConnectStep b w).1 = effBinary b w := by
  unfold runConnectStep effBinary connectOk
  cases hd : b.Config.DiscordRPC <;> rcases hc : w.activityConnect with e | u <;> simp [hd, hc]

theorem effBinary_discordRPC (b : Binary) (w : RunWorld) :
    (effBinary b w).Config.DiscordRPC = (b.Config.DiscordRPC && connectOk w) := by
  unfold effBinary
  cases hc : connectOk w <;> cases hd : b.Config.DiscordRPC <;> simp [hc, hd]

theorem effBinary_gameMode (b : Binary) (w : RunWorld) :
    (effBinary b w).Config.GameMode = b.Config.GameMode := by
  unfold effBinary
  split <;> rfl

theorem effBinary_global (b : Binary) (w : RunWorld) :
    (effBinary b w).GlobalConfig = b.GlobalConfig := by
  unfold effBinary
  split <;> rfl

theorem effBinary_btype (b : Binary) (w : RunWorld) :
    (effBinary b w).BType = b.BType := by
  unfold effBinary
  split <;> rfl

theorem int32ofNat_eq (n : Nat) (h : n < 2 ^ 31) : int32ofNat n = (n : Int) := by
  unfold int32ofNat
  have h32 : n % 2 ^ 32 = n := Nat.mod_eq_of_lt (lt_trans h (by norm_num))
  rw [h32, if_pos h]

theorem registerGameMode_not_mem_tailActs (flag : Bool) (w : RunWorld)
    (p : String) (x : Int) :
    PostAct.registerGameMode x ∉ tailActs flag w p := by
  unfold tailActs
  rcases w.tailOpen with e | u
  · simp
  · simp only [List.mem_cons]
    push_neg
    refine ⟨by simp, ?_⟩
    induction w.logLines with
    | nil => simp
    | cons a t ih =>
        simp only [List.foldr_cons, List.mem_cons, List.mem_append]
        cases flag <;> simp_all

theorem handleRobloxLog_not_mem_tailActs (w : RunWorld) (p l : String) :
    PostAct.handleRobloxLog l ∉ tailActs false w p := by
  unfold tailActs
  rcases w.tailOpen with e | u
  · simp
  · simp only [List.mem_cons]
    push_neg
    refine ⟨by simp, ?_⟩
    induction w.logLines with
    | nil => simp
    | cons a t ih =>
        simp only [List.foldr_cons, List.mem_cons]
        simp_all

theorem run_main_shape (b : Binary) (w : RunWorld)
    (hmut : ¬(b.GlobalConfig.MultipleInstances = true ∧ b.BType = BinaryType.Player)
            ∨ w.mutexerStart = Except.ok ())
    (hcmd : w.command = Except.ok ()) :
    (b.Run w).post = postLaunch (effBinary b w) w ∧
    (b.Run w).result =
      (match w.childRun with
       | Except.error e => some ("roblox process: " ++ e)
       | Except.ok _ => none) ∧
    (b.Run w).childStarted = true ∧
    (b.Run w).relay = signalRelay w.childExitedAtSignal w.signals := by
  simp only [Binary.Run, runConnectStep_fst, effBinary_global, effBinary_btype]
  rcases hmut with hm | hs
  · rw [if_neg hm]
    simp [runWithCommand, hcmd]
  · by_cases hp : b.GlobalConfig.MultipleInstances = true ∧ b.BType = BinaryType.Player
    · rw [if_pos hp, hs]
      simp [runWithCommand, hcmd]
    · rw [if_neg hp]
      simp [runWithCommand, hcmd]

/-- C2: in every run reaching the launch, if log discovery succeeds the
post-launch task closes the status reporter, registers the child's pid
with GameMode exactly once when the feature is enabled, and then begins
tailing, in that order and only after discovery; if discovery fails the
failure is only logged, close, registration and tailing are all skipped,
and Run's result is still solely determined by the child's exit: a
wrapped error on abnormal exit, nil otherwise. -/
theorem run_post_launch (b : Binary) (w : RunWorld)
    (hmut : ¬(b.GlobalConfig.MultipleInstances = true ∧ b.BType = BinaryType.Player)
            ∨ w.mutexerStart = Except.ok ())
    (hcmd : w.command = Except.ok ())
    (hpid : w.childPid < 2 ^ 31) :
    (∀ lf, w.discover = Except.ok lf →
        (b.Run w).post =
          PostAct.discoverOk lf :: PostAct.splashClose ::
            (if b.Config.GameMode then
                [PostAct.registerGameMode (w.childPid : Int)] else [])
            ++ tailActs (b.Config.DiscordRPC && connectOk w) w lf ∧
        (b.Config.GameMode = true →
            ((b.Run w).post.count (PostAct.registerGameMode (w.childPid : Int))) = 1)) ∧
    (∀ e, w.discover = Except.error e →
        (b.Run w).post = [PostAct.logDiscoverError e] ∧
        (∀ ce, w.childRun = Except.error ce →
            (b.Run w).result = some ("roblox process: " ++ ce)) ∧
        (w.childRun = Except.ok () → (b.Run w).result = none)) := by
  obtain ⟨hpost, hres, hstart, hrelay⟩ := run_main_shape b w hmut hcmd
  constructor
  · intro lf hlf
    have hshape : (b.Run w).post =
        PostAct.discoverOk lf :: PostAct.splashClose ::
          (if b.Config.GameMode then
              [PostAct.registerGameMode (w.childPid : Int)] else [])
          ++ tailActs (b.Config.DiscordRPC && connectOk w) w lf := by
      rw [hpost]
      unfold postLaunch
      rw [hlf]
      rw [effBinary_gameMode, effBinary_discordRPC, int32ofNat_eq w.childPid hpid]
    refine ⟨hshape, fun hgm => ?_⟩
    rw [hshape, hgm]
    have htail := List.count_eq_zero.mpr
      (registerGameMode_not_mem_tailActs (b.Config.DiscordRPC && connectOk w)
        w lf (w.childPid : Int))
    simp [List.count_append, List.count_cons, htail]
  · intro e he
    refine ⟨?_, ?_, ?_⟩
    · rw [hpost]
      unfold postLaunch
      rw [he]
    · intro ce hce
      rw [hres, hce]
    · intro hok
      rw [hres, hok]

/-- Witness for the C2 theorem: with discovery succeeding, the
post-launch trace is exactly close, one GameMode registration with the
child's pid, and the tail of the discovered file. -/
theorem run_post_launch_witness :
    (binEx.Run runWorldOk).post =
      [PostAct.discoverOk "roblox.log", PostAct.splashClose,
       PostAct.registerGameMode 1234, PostAct.tailStart "roblox.log",
       PostAct.printLine "joining game", PostAct.handleRobloxLog "joining game"] := by
  have h := ((run_post_launch binEx runWorldOk (Or.inl (by decide)) rfl
      (by decide)).1 "roblox.log" rfl).1
  rw [h]
  decide

/-- C3: the signal relay kills the child exactly once on the first
received signal and only if the child has not already exited; it then
stops listening, so its behaviour is independent of any later signal. -/
theorem signal_relay_once (exited : Bool) (s : String) (rest : List String) :
    signalRelay exited (s :: rest) = signalRelay exited [s] ∧
    (signalRelay exited (s :: rest)).count RelayAct.killChild
      = (if exited then 0 else 1) ∧
    signalRelay exited (s :: rest) =
      RelayAct.logSignal s ::
        (if exited then [] else [RelayAct.killChild]) ++ [RelayAct.stopListening] := by
  refine ⟨rfl, ?_, rfl⟩
  cases exited <;> simp [signalRelay]

theorem runWithCommand_fields (b1 : Binary) (w : RunWorld)
    (pre pre2 mt : List RunAct) :
    (runWithCommand b1 w pre mt).result = (runWithCommand b1 w pre2 mt).result ∧
    (runWithCommand b1 w pre mt).childStarted
      = (runWithCommand b1 w pre2 mt).childStarted ∧
    (runWithCommand b1 w pre mt).post = (runWithCommand b1 w pre2 mt).post ∧
    (runWithCommand b1 w pre mt).pre = pre ++ (runWithCommand b1 w [] mt).pre := by
  unfold runWithCommand
  rcases w.command with e | u <;> simp

theorem run_connect_fail_eq (b : Binary) (w : RunWorld) (e : String)
    (hrpc : b.Config.DiscordRPC = true)
    (hconn : w.activityConnect = Except.error e) :
    ((b.Run w).pre =
        RunAct.logActivityConnectError e ::
          (Binary.Run { b with Config := { b.Config with DiscordRPC := false } } w).pre) ∧
    ((b.Run w).result =
        (Binary.Run { b with Config := { b.Config with DiscordRPC := false } } w).result) ∧
    ((b.Run w).childStarted =
        (Binary.Run { b with Config := { b.Config with DiscordRPC := false } } w).childStarted) ∧
    ((b.Run w).post =
        (Binary.Run { b with Config := { b.Config with DiscordRPC := false } } w).post) := by
  have hc1 : runConnectStep b w =
      ({ b with Config := { b.Config with DiscordRPC := false } },
       [RunAct.logActivityConnectError e]) := by
    unfold runConnectStep
    rw [hrpc, hconn]
    simp
  have hc2 : runConnectStep { b with Config := { b.Config with DiscordRPC := false } } w =
      ({ b with Config := { b.Config with DiscordRPC := false } }, []) := by
    unfold runConnectStep
    simp
  simp only [Binary.Run, hc1, hc2]
  by_cases hp : b.GlobalConfig.MultipleInstances = true ∧ b.BType = BinaryType.Player
  · simp only [if_pos hp]
    rcases hs : w.mutexerStart with e2 | u
    · simp
    · obtain ⟨h1, h2, h3, h4⟩ := runWithCommand_fields
        { b with Config := { b.Config with DiscordRPC := false } } w
        ([RunAct.logActivityConnectError e] ++ [RunAct.startMutexer]) ([] ++ [RunAct.startMutexer])
        (match w.mutexerWait with
         | Except.error e => [RunAct.logMutexerEarlyExit e]
         | Except.ok _ => [])
      refine ⟨?_, h1, h2, h3⟩
      rw [h4,
        (runWithCommand_fields { b with Config := { b.Config with DiscordRPC := false } } w
          ([] ++ [RunAct.startMutexer]) ([] ++ [RunAct.startMutexer])
          (match w.mutexerWait with
           | Except.error e => [RunAct.logMutexerEarlyExit e]
           | Except.ok _ => [])).2.2.2]
      simp
  · simp only [if_neg hp]
    obtain ⟨h1, h2, h3, h4⟩ := runWithCommand_fields
      { b with Config := { b.Config with DiscordRPC := false } } w
      [RunAct.logActivityConnectError e] []
      []
    refine ⟨?_, h1, h2, h3⟩
    rw [h4,
      (runWithCommand_fields { b with Config := { b.Config with DiscordRPC := false } } w
        [] [] []).2.2.2]
    simp

theorem handleRobloxLog_not_mem_postLaunch (b : Binary) (w : RunWorld) (l : String)
    (hflag : b.Config.DiscordRPC = false) :
    PostAct.handleRobloxLog l ∉ postLaunch b w := by
  unfold postLaunch
  rcases w.discover with e | lf
  · simp
  · rw [hflag]
    intro hmem
    rcases List.mem_cons.mp hmem with h | hmem
    · exact PostAct.noConfusion h
    rcases List.mem_cons.mp hmem with h | hmem
    · exact PostAct.noConfusion h
    rcases List.mem_append.mp hmem with h | h
    · revert h
      split <;> simp
    · exact handleRobloxLog_not_mem_tailActs w lf l h

theorem handleRobloxLog_not_mem_run_post (b : Binary) (w : RunWorld) (l : String)
    (hflag : b.Config.DiscordRPC = false) :
    PostAct.handleRobloxLog l ∉ (b.Run w).post := by
  have hc : runConnectStep b w = (b, []) := by
    unfold runConnectStep
    rw [hflag]
    simp
  simp only [Binary.Run, hc]
  by_cases hp : b.GlobalConfig.MultipleInstances = true ∧ b.BType = BinaryType.Player
  · simp only [if_pos hp]
    rcases hs : w.mutexerStart with e2 | u
    · simp
    · unfold runWithCommand
      rcases w.command with e3 | u3
      · simp
      · exact handleRobloxLog_not_mem_postLaunch b w l hflag
  · simp only [if_neg hp]
    unfold runWithCommand
    rcases w.command with e3 | u3
    · simp
    · exact handleRobloxLog_not_mem_postLaunch b w l hflag

/-- C7: when the configured DiscordRPC flag is set and the activity
connection fails at the start of Run, the failure is only logged —
Run's result, child launch and post-launch behaviour are those of a run
with activity reporting disabled — and the per-line Roblox log handler
is never invoked during that run. -/
theorem run_activity_disabled (b : Binary) (w : RunWorld) (e : String)
    (hrpc : b.Config.DiscordRPC = true)
    (hconn : w.activityConnect = Except.error e) :
    RunAct.logActivityConnectError e ∈ (b.Run w).pre ∧
    (∀ l, PostAct.handleRobloxLog l ∉ (b.Run w).post) ∧
    ((b.Run w).result =
        (Binary.Run { b with Config := { b.Config with DiscordRPC := false } } w).result) ∧
    ((b.Run w).childStarted =
        (Binary.Run { b with Config := { b.Config with DiscordRPC := false } } w).childStarted) := by
  obtain ⟨h1, h2, h3, h4⟩ := run_connect_fail_eq b w e hrpc hconn
  refine ⟨?_, ?_, h2, h3⟩
  · rw [h1]
    exact List.mem_cons_self _ _
  · intro l
    rw [h4]
    exact handleRobloxLog_not_mem_run_post _ w l (by simp)

/-- Witness for the C7 theorem: the connect failure is logged and the
handler is absent from the post-launch trace. -/
theorem run_activity_disabled_witness :
    RunAct.logActivityConnectError "no ipc socket" ∈ (binEx.Run runWorldConnFail).pre ∧
    PostAct.handleRobloxLog "joining game" ∉ (binEx.Run runWorldConnFail).post := by
  have h := run_activity_disabled binEx runWorldConnFail "no ipc socket" rfl rfl
  exact ⟨h.1, h.2.1 "joining game"⟩

/-- Counterexample to C8 as stated: a failure of the mutex-holder helper
(its start call) makes Run return an error, and the main child process
is never launched. -/
theorem run_mutexer_start_failure_cex :
    (binMulti.Run runWorldMutexFail).result =
        some "start robloxmutexer: exec format error" ∧
    (binMulti.Run runWorldMutexFail).childStarted = false := by
  constructor <;> rfl

theorem run_mutexerWait_frame (b : Binary) (w w2 : RunWorld)
    (hac : w2.activityConnect = w.activityConnect)
    (hms : w2.mutexerStart = w.mutexerStart)
    (hcm : w2.command = w.command)
    (hcp : w2.childPid = w.childPid)
    (hdc : w2.discover = w.discover)
    (hto : w2.tailOpen = w.tailOpen)
    (hll : w2.logLines = w.logLines)
    (hsg : w2.signals = w.signals)
    (hce : w2.childExitedAtSignal = w.childExitedAtSignal)
    (hcr : w2.childRun = w.childRun) :
    (b.Run w2).result = (b.Run w).result ∧
    (b.Run w2).childStarted = (b.Run w).childStarted ∧
    (b.Run w2).post = (b.Run w).post ∧
    (b.Run w2).pre = (b.Run w).pre := by
  have hrc : runConnectStep b w2 = runConnectStep b w := by
    unfold runConnectStep
    rw [hac]
  have hpl : ∀ b1, postLaunch b1 w2 = postLaunch b1 w := by
    intro b1
    unfold postLaunch tailActs
    rw [hdc, hcp, hto, hll]
  have hrwc : ∀ b1 pre mt,
      runWithCommand b1 w2 pre mt = runWithCommand b1 w pre mt := by
    intro b1 pre mt
    unfold runWithCommand
    rw [hcm, hcr, hsg, hce, hpl]
  by_cases hp : ((runConnectStep b w).1.GlobalConfig.MultipleInstances = true ∧
      (runConnectStep b w).1.BType = BinaryType.Player)
  · simp only [Binary.Run, hrc, hms, if_pos hp]
    rcases hs : w.mutexerStart with e | u
    · exact ⟨rfl, rfl, rfl, rfl⟩
    · refine ⟨?_, ?_, ?_, ?_⟩ <;>
        · rw [hrwc]
          unfold runWithCommand
          rcases hc : w.command with e2 | u2 <;> rfl
  · simp only [Binary.Run, hrc, if_neg hp]
    refine ⟨?_, ?_, ?_, ?_⟩ <;>
      · rw [hrwc]

/-- C8 amended: with multiple instances configured on the Player
variant, the helper's early exit after a successful start is only logged
by the fire-and-forget wait task and affects neither Run's result nor
the launch nor the post-launch behaviour; a failure of the start call
itself, however, aborts Run with a wrapped error before the child is
launched. -/
theorem run_mutexer_fire_and_forget (b : Binary) (w : RunWorld)
    (hmi : b.GlobalConfig.MultipleInstances = true)
    (ht : b.BType = BinaryType.Player) :
    (∀ e, w.mutexerStart = Except.error e →
        (b.Run w).result = some ("start robloxmutexer: " ++ e) ∧
        (b.Run w).childStarted = false) ∧
    (∀ e, w.mutexerStart = Except.ok () → w.mutexerWait = Except.error e →
        RunAct.startMutexer ∈ (b.Run w).pre ∧
        (b.Run w).mutexerTask = [RunAct.logMutexerEarlyExit e] ∧
        (b.Run w).result = (b.Run { w with mutexerWait := Except.ok () }).result ∧
        (b.Run w).childStarted
          = (b.Run { w with mutexerWait := Except.ok () }).childStarted ∧
        (b.Run w).post = (b.Run { w with mutexerWait := Except.ok () }).post) := by
  have hcond : ((runConnectStep b w).1.GlobalConfig.MultipleInstances = true ∧
      (runConnectStep b w).1.BType = BinaryType.Player) := by
    rw [runConnectStep_fst, effBinary_global, effBinary_btype]
    exact ⟨hmi, ht⟩
  constructor
  · intro e hs
    simp [Binary.Run, if_pos hcond, hs]
  · intro e hs hwait
    obtain ⟨hres, hcs, hpost, _⟩ := run_mutexerWait_frame b w
      { w with mutexerWait := Except.ok () } rfl rfl rfl rfl rfl rfl rfl rfl rfl rfl
    refine ⟨?_, ?_, hres.symm, hcs.symm, hpost.symm⟩
    · simp only [Binary.Run, if_pos hcond, hs]
      rw [(runWithCommand_fields (runConnectStep b w).1 w
          ((runConnectStep b w).2 ++ [RunAct.startMutexer]) []
          (match w.mutexerWait with
           | Except.error e => [RunAct.logMutexerEarlyExit e]
           | Except.ok _ => [])).2.2.2]
      simp
    · simp only [Binary.Run, if_pos hcond, hs, hwait]
      unfold runWithCommand
      rcases hc : w.command with e2 | u2 <;> rfl

/-- Witness for the C8 amended theorem: the early exit is logged by the
wait task while the child is still launched and Run succeeds. -/
theorem run_mutexer_fire_and_forget_witness :
    (binMulti.Run runWorldMutexEarly).mutexerTask =
        [RunAct.logMutexerEarlyExit "exited too early"] ∧
    (binMulti.Run runWorldMutexEarly).childStarted = true ∧
    (binMulti.Run runWorldMutexEarly).result = none := by
  have h := ((run_mutexer_fire_and_forget binMulti runWorldMutexEarly rfl rfl).2
      "exited too early" rfl rfl)
  exact ⟨h.2.1, by decide, by decide⟩

theorem mainRest_no_init_acts (b : Binary) (w : MainWorld) (args : List String) :
    MainAct.prefixInit ∉ (mainRest b w args).1 ∧
    MainAct.setDPI 97 ∉ (mainRest b w args).1 ∧
    MainAct.installWebView ∉ (mainRest b w args).1 := by
  unfold mainRest
  rcases hs : w.setup with e | u
  · rcases args with _ | ⟨a, _ | t⟩ <;> simp
  · rcases hr : w.runResult with e2 | u2 <;> rcases args with _ | ⟨a, _ | t⟩ <;> simp

theorem mainRest_bin (b : Binary) (w : MainWorld) (args : List String) :
    (mainRest b w args).2.2 = b.mainProtocolStep args := by
  unfold mainRest
  rcases hs : w.setup with e | u
  · rfl
  · rcases hr : w.runResult with e2 | u2 <;> rfl

/-- Main either aborts before protocol handling, leaving the Binary
untouched, or returns the Binary exactly as produced by the protocol
step. -/
theorem main_bin_protocol (b : Binary) (w : MainWorld) (args : List String) :
    (b.Main w args).2.2 = b ∨
    (b.Main w args).2.2 = b.mainProtocolStep args := by
  rcases hl : w.logFile with e | f2
  · left
    simp [Binary.Main, hl]
  · cases hfr : (w.firstRun || w.firstRunFlag)
    · right
      simp [Binary.Main, hl, hfr, mainRest_bin]
    · rcases hini : initOutcome b w with e2 | u2
      · left
        simp [Binary.Main, hl, hfr, hini]
      · rcases hwv : w.installWebView with e3 | u3
        · left
          simp [Binary.Main, hl, hfr, hini, hwv]
        · right
          simp [Binary.Main, hl, hfr, hini, hwv, mainRest_bin]

/-- C5: when first run holds (the wineprefix marker directory is absent)
or the external first-run flag is set, Main performs the variant's
environment initialization — Prefix.Init for Player, SetDPI for Studio —
and then the one-time WebView install; a failure of either step makes
Main return the wrapped error with Setup and Run never invoked; when
neither condition holds, initialization and install are both skipped. -/
theorem main_first_run_init (b : Binary) (w : MainWorld) (args : List String)
    (f : String) (hlog : w.logFile = Except.ok f) :
    ((w.firstRun || w.firstRunFlag) = true →
        ((b.BType = BinaryType.Player →
            MainAct.prefixInit ∈ (b.Main w args).1 ∧
            MainAct.setDPI 97 ∉ (b.Main w args).1) ∧
         (b.BType = BinaryType.Studio →
            MainAct.setDPI 97 ∈ (b.Main w args).1 ∧
            MainAct.prefixInit ∉ (b.Main w args).1)) ∧
        (∀ e, initOutcome b w = Except.error e →
            (b.Main w args).2.1 =
              some ("failed to init " ++ b.BType.str ++ " prefix: " ++ e) ∧
            MainAct.installWebView ∉ (b.Main w args).1 ∧
            MainAct.setup ∉ (b.Main w args).1 ∧
            (∀ a, MainAct.runChild a ∉ (b.Main w args).1)) ∧
        (initOutcome b w = Except.ok () →
            (∃ rest, (b.Main w args).1 =
                (if w.firstRun && !w.cpuAVX then [MainAct.dialogNoAVX] else []) ++
                  [MainAct.spawnSplashTask, MainAct.setMessageInitializing,
                   initAction b, MainAct.installWebView] ++ rest) ∧
            (∀ e, w.installWebView = Except.error e →
                (b.Main w args).2.1 = some ("failed to install webview: " ++ e) ∧
                MainAct.setup ∉ (b.Main w args).1 ∧
                (∀ a, MainAct.runChild a ∉ (b.Main w args).1)))) ∧
    ((w.firstRun || w.firstRunFlag) = false →
        MainAct.prefixInit ∉ (b.Main w args).1 ∧
        MainAct.setDPI 97 ∉ (b.Main w args).1 ∧
        MainAct.installWebView ∉ (b.Main w args).1) := by
  obtain ⟨hm1, hm2, hm3⟩ := mainRest_no_init_acts b w args
  constructor
  · intro hfr
    refine ⟨⟨?_, ?_⟩, ?_, ?_⟩
    · intro hty
      rcases hini : initOutcome b w with e | u
      · constructor
        · simp [Binary.Main, hlog, hfr, hini, initAction, hty]
        · simp only [Binary.Main, hlog, hfr, hini, initAction, hty]
          split <;> simp_all [hm1, hm2, hm3]
      · rcases hwv : w.installWebView with e2 | u2
        · constructor
          · simp [Binary.Main, hlog, hfr, hini, hwv, initAction, hty]
          · simp only [Binary.Main, hlog, hfr, hini, hwv, initAction, hty]
            split <;> simp_all [hm1, hm2, hm3]
        · constructor
          · simp [Binary.Main, hlog, hfr, hini, hwv, initAction, hty]
          · simp only [Binary.Main, hlog, hfr, hini, hwv, initAction, hty]
            split <;> simp_all [hm1, hm2, hm3]
    · intro hty
      rcases hini : initOutcome b w with e | u
      · constructor
        · simp [Binary.Main, hlog, hfr, hini, initAction, hty]
        · simp only [Binary.Main, hlog, hfr, hini, initAction, hty]
          split <;> simp_all [hm1, hm2, hm3]
      · rcases hwv : w.installWebView with e2 | u2
        · constructor
          · simp [Binary.Main, hlog, hfr, hini, hwv, initAction, hty]
          · simp only [Binary.Main, hlog, hfr, hini, hwv, initAction, hty]
            split <;> simp_all [hm1, hm2, hm3]
        · constructor
          · simp [Binary.Main, hlog, hfr, hini, hwv, initAction, hty]
          · simp only [Binary.Main, hlog, hfr, hini, hwv, initAction, hty]
            split <;> simp_all [hm1, hm2, hm3]
    · intro e hini
      refine ⟨?_, ?_, ?_, ?_⟩
      · simp [Binary.Main, hlog, hfr, hini]
      · simp only [Binary.Main, hlog, hfr, hini]
        rcases hbt : b.BType <;> split <;> simp_all [initAction]
      · simp only [Binary.Main, hlog, hfr, hini]
        rcases hbt : b.BType <;> split <;> simp_all [initAction]
      · intro a
        simp only [Binary.Main, hlog, hfr, hini]
        rcases hbt : b.BType <;> split <;> simp_all [initAction]
    · intro hini
      constructor
      · rcases hwv : w.installWebView with e2 | u2
        · exact ⟨[], by simp [Binary.Main, hlog, hfr, hini, hwv]⟩
        · exact ⟨(mainRest b w args).1, by simp [Binary.Main, hlog, hfr, hini, hwv]⟩
      · intro e hwv
        refine ⟨?_, ?_, ?_⟩
        · simp [Binary.Main, hlog, hfr, hini, hwv]
        · simp only [Binary.Main, hlog, hfr, hini, hwv]
          rcases hbt : b.BType <;> split <;> simp_all [initAction]
        · intro a
          simp only [Binary.Main, hlog, hfr, hini, hwv]
          rcases hbt : b.BType <;> split <;> simp_all [initAction]
  · intro hfr
    refine ⟨?_, ?_, ?_⟩
    · simp only [Binary.Main, hlog, hfr]
      split <;> simp_all [hm1, hm2, hm3]
    · simp only [Binary.Main, hlog, hfr]
      split <;> simp_all [hm1, hm2, hm3]
    · simp only [Binary.Main, hlog, hfr]
      split <;> simp_all [hm1, hm2, hm3]

/-- Witness for the C5 theorem: a first run with a failing Prefix.Init
aborts with the wrapped error and Setup is never invoked. -/
theorem main_first_run_init_witness :
    (binEx.Main mainWorldInitFail []).2.1 =
        some "failed to init Player prefix: wineboot failed" ∧
    MainAct.setup ∉ (binEx.Main mainWorldInitFail []).1 := by
  have h := ((main_first_run_init binEx mainWorldInitFail [] "player.log" rfl).1
      (by decide)).2.1 "wineboot failed" rfl
  exact ⟨h.1, h.2.2.1⟩

end Vinegar

